import Mathlib

/-!
Verification development for the document-ingestion layer of the
chat-with-your-data solution accelerator (Python backend).

The Python sources under code/backend/batch/utilities are shallowly embedded:
JSON values (as produced by orjson/json parsing) become the inductive type
JVal; Python dictionaries become insertion-ordered association lists with
string keys; Python exceptions become an Except monad over PyErr.  External
library calls (langchain CSVLoader and text splitter, urllib.parse.urlparse,
hashlib.sha1, the stdlib json serializer) are either taken as function
parameters or modelled from their documented contract, as flagged by doc
comments.
-/

/-- A parsed JSON value.  Python None is JVal.null; Python dicts keep their
insertion order as association lists. -/
inductive JVal where
  | null : JVal
  | bool : Bool → JVal
  | int : Int → JVal
  | str : String → JVal
  | arr : List JVal → JVal
  | obj : List (String × JVal) → JVal
  deriving Repr

/-- Python exception kinds raised by the embedded code. -/
inductive PyErr where
  | valueError : String → PyErr
  | typeError : PyErr
  | attributeError : PyErr
  | keyError : String → PyErr
  deriving DecidableEq, Repr

/-- Python dict lookup that distinguishes absence from a null value:
some v when the key is present (v may be JVal.null), none when absent. -/
def dLookup (d : List (String × JVal)) (k : String) : Option JVal :=
  match d with
  | [] => none
  | (k', v) :: rest => if k' = k then some v else dLookup rest k

/-- Python d.get(k) with no default: returns None both when the key is absent
and when it is present with value None, so both cases collapse to JVal.null. -/
def pyGet (d : List (String × JVal)) (k : String) : JVal :=
  (dLookup d k).getD .null

/-- Python d.get(k, default): the default is used only when the key is absent;
a key present with value None yields JVal.null, not the default. -/
def dGetD (d : List (String × JVal)) (k : String) (default : JVal) : JVal :=
  (dLookup d k).getD default

/-- Python d[k] = v on a dict: updates the value in place when the key exists
(keeping its position), appends otherwise. -/
def dInsert (d : List (String × JVal)) (k : String) (v : JVal) :
    List (String × JVal) :=
  if d.any (fun kv => kv.1 = k) then
    d.map (fun kv => if kv.1 = k then (k, v) else kv)
  else
    d ++ [(k, v)]

/-- Python iteration over a value: lists yield their elements, strings their
characters, dicts their keys; None, bools and ints raise TypeError. -/
def pyIter : JVal → Except PyErr (List JVal)
  | .arr xs => .ok xs
  | .str s => .ok (s.toList.map (fun c => .str c.toString))
  | .obj kvs => .ok (kvs.map (fun kv => .str kv.1))
  | .null => .error .typeError
  | .bool _ => .error .typeError
  | .int _ => .error .typeError

/-- Python v.get(k) on an arbitrary value: only dicts have .get, everything
else raises AttributeError. -/
def pyGetAttrGet (v : JVal) (k : String) : Except PyErr JVal :=
  match v with
  | .obj kvs => .ok (pyGet kvs k)
  | _ => .error .attributeError

/-- Whether the character list pat occurs at the start of s. -/
def listStartsWith : List Char → List Char → Bool
  | _, [] => true
  | [], _ :: _ => false
  | c :: cs, p :: ps => c = p && listStartsWith cs ps

/-- Whether the character list pat occurs anywhere inside s. -/
def listContainsSub : List Char → List Char → Bool
  | [], pat => pat.isEmpty
  | s@(_ :: rest), pat => listStartsWith s pat || listContainsSub rest pat

/-- Python substring test (the in operator on strings). -/
def strIn (pat s : String) : Bool :=
  listContainsSub s.toList pat.toList

mutual

/-- Structural equality of JSON values, mirroring Python == on parsed JSON
data (dicts here being insertion-ordered association lists). -/
def JVal.beq : JVal → JVal → Bool
  | .null, .null => true
  | .bool a, .bool b => a = b
  | .int a, .int b => a = b
  | .str a, .str b => a = b
  | .arr xs, .arr ys => JVal.beqList xs ys
  | .obj xs, .obj ys => JVal.beqKvs xs ys
  | _, _ => false

/-- Elementwise equality of JSON arrays. -/
def JVal.beqList : List JVal → List JVal → Bool
  | [], [] => true
  | x :: xs, y :: ys => JVal.beq x y && JVal.beqList xs ys
  | _, _ => false

/-- Pairwise equality of JSON object entries. -/
def JVal.beqKvs : List (String × JVal) → List (String × JVal) → Bool
  | [], [] => true
  | (k, v) :: xs, (k', v') :: ys => k = k' && JVal.beq v v' && JVal.beqKvs xs ys
  | _, _ => false

end

namespace JsonDocumentSettings

/-- Document-type tags of JsonDocumentSettings.KeyType. -/
inductive KeyType where
  | CLUSTER
  | CONTENT
  | CONTENT_PUBLICATIONS
  | SUMMARY
  | PROGRAM_MANAGER
  | PUBLICATIONS
  deriving DecidableEq, Repr

def cluster_keys : List String :=
  ["name", "description", "research_questions", "research_approach",
   "key_takeaways", "research_trends", "executive_summary"]

def cluster_metadata_keys : List String :=
  ["document_type", "afmr_url"]

def content_keys : List String :=
  ["topic", "abstract", "Impact", "Benchmark", "Outcomes", "Approach",
   "Novelty", "Task", "Challenges", "publications"]

def content_publications_keys : List String :=
  ["topic", "research_questions", "executive_summary"]

def content_metadata_keys : List String :=
  ["proposal_id", "program_manager", "primary_investigator", "institution",
   "cluster", "source_url", "publications"]

def content_publications_metadata_keys : List String :=
  ["publication_url", "publication_id", "authors", "publication_date"]

def summary_keys : List String :=
  ["abstract", "summary", "program_managers", "goals", "research_questions",
   "research_approach", "key_takeaways", "research_trends"]

def summary_metadata_keys : List String :=
  ["abbreviations", "afmr_short_url", "afmr_url", "afmr_github_url",
   "project_program_manager_count", "project_cluster_count",
   "project_proposal_count", "project_primary_investigator_count",
   "project_institution_count"]

def program_manager_keys : List String :=
  ["full_name", "email"]

def program_manager_metadata_keys : List String :=
  ["institution_count", "clusters", "proposal_count",
   "primary_investigator_count"]

def publications_keys : List String :=
  ["topic", "summary", "research_questions", "research_approach",
   "research_takeaways", "research_conclusion", "executive_summary"]

def publications_metadata_keys : List String :=
  ["source_url", "authors", "publication_date"]

/-- The content key table of the initialized settings instance
(self._key_fields); every KeyType is present, so indexing is total. -/
def key_fields : KeyType → List String
  | .CLUSTER => cluster_keys
  | .CONTENT => content_keys
  | .CONTENT_PUBLICATIONS => content_publications_keys
  | .SUMMARY => summary_keys
  | .PROGRAM_MANAGER => program_manager_keys
  | .PUBLICATIONS => publications_keys

/-- The metadata key table of the initialized settings instance
(self._metadata_key_fields). -/
def metadata_key_fields : KeyType → List String
  | .CLUSTER => cluster_metadata_keys
  | .CONTENT => content_metadata_keys
  | .CONTENT_PUBLICATIONS => content_publications_metadata_keys
  | .SUMMARY => summary_metadata_keys
  | .PROGRAM_MANAGER => program_manager_metadata_keys
  | .PUBLICATIONS => publications_metadata_keys

/-- Configuration state of a settings instance as assigned by init: the
strict-keys flag and the two key tables (stored here as finite association
lists so that states can be compared). -/
structure Data where
  strict_keys : Bool
  key_fields_tbl : List (KeyType × List String)
  metadata_key_fields_tbl : List (KeyType × List String)
  deriving DecidableEq, Repr

/-- The configuration that init assigns: strict keys off, and the two
constant key tables. Rerunning init always reproduces exactly this value. -/
def initData : Data :=
  { strict_keys := false
    key_fields_tbl :=
      [(.CLUSTER, cluster_keys), (.CONTENT, content_keys),
       (.CONTENT_PUBLICATIONS, content_publications_keys),
       (.SUMMARY, summary_keys), (.PROGRAM_MANAGER, program_manager_keys),
       (.PUBLICATIONS, publications_keys)]
    metadata_key_fields_tbl :=
      [(.CLUSTER, cluster_metadata_keys), (.CONTENT, content_metadata_keys),
       (.CONTENT_PUBLICATIONS, content_publications_metadata_keys),
       (.SUMMARY, summary_metadata_keys),
       (.PROGRAM_MANAGER, program_manager_metadata_keys),
       (.PUBLICATIONS, publications_metadata_keys)] }

/-- Class-level state of the singleton: the next fresh object identity and
the stored instance (identity paired with its configuration), if any. -/
structure SingletonState where
  nextId : Nat
  inst : Option (Nat × Data)
  deriving DecidableEq, Repr

/-- State before any constructor call: cls. instance is None. -/
def initialState : SingletonState := ⟨0, none⟩

/-- One call JsonDocumentSettings(): new runs under the class lock and, on
first call, allocates the instance, runs init on it and stores it; on later
calls it returns the stored instance. Python's constructor protocol then
runs init once more on the returned instance, rewriting every configuration
field with the same constant values. Returns (object identity, data). -/
def new : SingletonState → (Nat × Data) × SingletonState
  | ⟨n, none⟩ => ((n, initData), ⟨n + 1, some (n, initData)⟩)
  | ⟨n, some (i, _)⟩ => ((i, initData), ⟨n, some (i, initData)⟩)

/-- Class-level state after n successive constructor calls from the fresh
state. -/
def callConstructor : Nat → SingletonState
  | 0 => initialState
  | n + 1 => (new (callConstructor n)).2

end JsonDocumentSettings

namespace JsonDocumentLoading

open JsonDocumentSettings

/-- Embeds get_json_document_type: the document type is chosen by substring
tests on the document URL, defaulting to CONTENT. -/
def get_json_document_type (document_url : String) : KeyType :=
  if strIn "_cluster_info.json" document_url then .CLUSTER
  else if strIn "afmr_summary2.json" document_url then .SUMMARY
  else if strIn "_pm.json" document_url then .PROGRAM_MANAGER
  else if strIn "_pub.json" document_url then .PUBLICATIONS
  else .CONTENT

/-- The pair of dictionaries built by load_schema_from_dict. -/
structure SchemaResult where
  content : List (String × JVal)
  metadata : List (String × JVal)
  deriving Repr

/-- The strict-mode error message for a missing field. -/
def missingFieldMsg (document_url k : String) : String :=
  "JSON file at path " ++ document_url ++ " must contain the field \x27" ++
    k ++ "\x27"

/-- Embeds get_content_publications: reads the publications entry of the
payload and produces the value stored under the content key "publications":
an empty list is passed through; a missing entry raises ValueError only in
strict mode; otherwise the entry is iterated and each publication is reduced
to the configured content publication keys (each publication dict is written
key by key; the configured keys are pairwise distinct, so this equals the
association list in key order). -/
def get_content_publications (strict : Bool) (document_url : String)
    (data_dict : List (String × JVal)) : Except PyErr JVal := do
  let publications := pyGet data_dict "publications"
  if JVal.beq publications (.arr []) then
    return .arr []
  if JVal.beq publications .null && strict then
    throw (.valueError (missingFieldMsg document_url "publications"))
  let items ← pyIter publications
  let publication_data ← items.mapM (fun publication => do
    let kvs ← content_publications_keys.mapM (fun k => do
      let value ← pyGetAttrGet publication k
      if JVal.beq value .null && strict then
        throw (.valueError (missingFieldMsg document_url k))
      return (k, value))
    return JVal.obj kvs)
  return .arr publication_data

/-- Embeds get_content_publications_metadata, the analogous routine over the
configured publication metadata keys producing the value intended for the
metadata key "publications". It is defined in the source but never called. -/
def get_content_publications_metadata (strict : Bool) (document_url : String)
    (data_dict : List (String × JVal)) : Except PyErr JVal := do
  let publications := pyGet data_dict "publications"
  if JVal.beq publications (.arr []) then
    return .arr []
  if JVal.beq publications .null && strict then
    throw (.valueError (missingFieldMsg document_url "publications"))
  let items ← pyIter publications
  let publication_data ← items.mapM (fun publication => do
    let kvs ← content_publications_metadata_keys.mapM (fun k => do
      let value ← pyGetAttrGet publication k
      if JVal.beq value .null && strict then
        throw (.valueError (missingFieldMsg document_url k))
      return (k, value))
    return JVal.obj kvs)
  return .arr publication_data

/-- The first loop of load_schema_from_dict, over the content keys: the key
"publications" is delegated to get_content_publications (whose result is
stored under content), every other key is read with .get, checked under
strict mode, and stored under content. -/
def contentLoop (strict : Bool) (document_url : String)
    (data_dict : List (String × JVal)) :
    List String → SchemaResult → Except PyErr SchemaResult
  | [], r => return r
  | k :: ks, r => do
    if k = "publications" then
      let v ← get_content_publications strict document_url data_dict
      contentLoop strict document_url data_dict ks
        { r with content := dInsert r.content "publications" v }
    else
      let value := pyGet data_dict k
      if JVal.beq value .null && strict then
        throw (.valueError (missingFieldMsg document_url k))
      contentLoop strict document_url data_dict ks
        { r with content := dInsert r.content k value }

/-- The second loop of load_schema_from_dict, over the metadata keys. As in
the source, the key "publications" again calls get_content_publications and
stores its result under content (not metadata); every other key is read with
.get, checked under strict mode, and stored under metadata. -/
def metadataLoop (strict : Bool) (document_url : String)
    (data_dict : List (String × JVal)) :
    List String → SchemaResult → Except PyErr SchemaResult
  | [], r => return r
  | t :: ts, r => do
    if t = "publications" then
      let v ← get_content_publications strict document_url data_dict
      metadataLoop strict document_url data_dict ts
        { r with content := dInsert r.content "publications" v }
    else
      let value := pyGet data_dict t
      if JVal.beq value .null && strict then
        throw (.valueError (missingFieldMsg document_url t))
      metadataLoop strict document_url data_dict ts
        { r with metadata := dInsert r.metadata t value }

/-- Embeds load_schema_from_dict: starting from empty content and metadata
dictionaries, runs the content-key loop and then the metadata-key loop for
the document type of the URL. -/
def load_schema_from_dict (strict : Bool) (document_url : String)
    (data_dict : List (String × JVal)) : Except PyErr SchemaResult := do
  let keyType := get_json_document_type document_url
  let keys := key_fields keyType
  let metadata_keys := metadata_key_fields keyType
  let r ← contentLoop strict document_url data_dict keys ⟨[], []⟩
  metadataLoop strict document_url data_dict metadata_keys r

/-- Embeds load_json up to schema extraction: a payload that is not a
dictionary raises ValueError; a dictionary payload is handed to
load_schema_from_dict. The final wrapping of the result into a langchain
Document (whose page content is the Python repr of the result) is external
presentation and is not modelled. -/
def load_json (strict : Bool) (document_url : String) (data : JVal) :
    Except PyErr SchemaResult :=
  match data with
  | .obj kvs => load_schema_from_dict strict document_url kvs
  | _ =>
    .error (.valueError
      ("JSON file at path: " ++ document_url ++ " must be a dictionary."))

end JsonDocumentLoading

/-- The LoadingStrategy enum of strategies.py. -/
inductive LoadingStrategy where
  | LAYOUT
  | READ
  | WEB
  | DOCX
  | JSON
  | CSV
  deriving DecidableEq, Repr

/-- The value attribute of each LoadingStrategy member. -/
def LoadingStrategy.value : LoadingStrategy → String
  | .LAYOUT => "layout"
  | .READ => "read"
  | .WEB => "web"
  | .DOCX => "docx"
  | .JSON => "json"
  | .CSV => "csv"

/-- The loader classes that get_document_loader can instantiate. -/
inductive DocumentLoader where
  | layoutDocumentLoading
  | readDocumentLoading
  | webDocumentLoading
  | wordDocumentLoading
  | jsonDocumentLoading
  | csvDocumentLoading
  deriving DecidableEq, Repr

/-- Embeds get_document_loader: compares the strategy string against each
LoadingStrategy value in turn and raises for anything else. -/
def get_document_loader (loader_strategy : String) :
    Except String DocumentLoader :=
  if loader_strategy = LoadingStrategy.LAYOUT.value then
    .ok .layoutDocumentLoading
  else if loader_strategy = LoadingStrategy.READ.value then
    .ok .readDocumentLoading
  else if loader_strategy = LoadingStrategy.WEB.value then
    .ok .webDocumentLoading
  else if loader_strategy = LoadingStrategy.DOCX.value then
    .ok .wordDocumentLoading
  else if loader_strategy = LoadingStrategy.JSON.value then
    .ok .jsonDocumentLoading
  else if loader_strategy = LoadingStrategy.CSV.value then
    .ok .csvDocumentLoading
  else
    .error ("Unknown loader strategy: " ++ loader_strategy)

/-- Modelled from the spec: the base SourceDocument class
(common/source_document.py is not under src/; only its subclass and callers
are). Per the spec data model it carries content, source, id, title, chunk
index, offset, page number and chunk id, all optional except content and
source; the chunker additionally reads a researcher metadata attribute,
passed through here opaquely. -/
structure SourceDocument where
  content : String
  source : String
  id : Option String := none
  title : Option String := none
  chunk : Option Nat := none
  offset : Option Nat := none
  page_number : Option Nat := none
  chunk_id : Option String := none
  researcher_metadata : Option JVal := none
  deriving Repr

/-- A langchain Document as consumed by the loaders: page content plus a
metadata dictionary. -/
structure LCDocument where
  page_content : String
  metadata : List (String × JVal)
  deriving Repr

/-- Modelled from the spec: langchain CSVLoader (an external library
excluded as a collaborator) parses the CSV at the given file path into one
langchain Document per data row, whose metadata records the source file
path and the row number. The rows argument stands for the data rows of the
file. -/
def csvLoaderLoad (file_path : String) (rows : List String) :
    List LCDocument :=
  (rows.enum).map (fun p =>
    { page_content := p.2
      metadata := [("source", .str file_path), ("row", .int p.1)] })

namespace CsvDocumentLoading

/-- Reads the source entry of a document metadata dictionary; CSVLoader
always sets it to a string. -/
def metadataSource (metadata : List (String × JVal)) : String :=
  match dLookup metadata "source" with
  | some (.str s) => s
  | _ => ""

/-- Embeds CsvDocumentLoading.load: every Document produced by the CSV
loader is rewrapped as a SourceDocument with the document page content and
the source taken from the document metadata. -/
def load (document_url : String) (rows : List String) :
    List SourceDocument :=
  (csvLoaderLoad document_url rows).map (fun document =>
    { content := document.page_content
      source := metadataSource document.metadata })

end CsvDocumentLoading

/-- Modelled from the spec: the base class method SourceDocument.from_metadata
as invoked by the structured chunker (the base class file is not under src/).
Per the spec data model a SourceDocument is created with the given chunk
content, its source is the origin locator the chunker passes (the first
document source), its chunk index is the enumeration index and its offset is
the metadata offset entry; the researcher metadata is passed through. -/
def SourceDocument.from_metadata (content : String) (document_url : String)
    (researcher_metadata : Option JVal) (offset : Nat) (idx : Nat) :
    SourceDocument :=
  { content := content
    source := document_url
    chunk := some idx
    offset := some offset
    researcher_metadata := researcher_metadata }

namespace StructuredDocumentChunking

/-- The chunk-construction loop of StructuredDocumentChunking.chunk: walks
the split chunks keeping the running enumeration index and character offset,
building one SourceDocument per chunk. -/
def buildChunks (document_url : String) (researcher_metadata : Option JVal) :
    List String → Nat → Nat → List SourceDocument
  | [], _, _ => []
  | c :: cs, idx, chunk_offset =>
    SourceDocument.from_metadata c document_url researcher_metadata
        chunk_offset idx ::
      buildChunks document_url researcher_metadata cs (idx + 1)
        (chunk_offset + c.length)

/-- Embeds StructuredDocumentChunking.chunk, taking the external langchain
text splitter as a function argument: the contents of all input documents
are concatenated, split, and each chunk becomes a SourceDocument built from
the first input document source with running chunk index and offset. On an
empty input list the source indexes documents[0] and fails, so the result is
none there. -/
def chunk (splitter : String → List String)
    (documents : List SourceDocument) : Option (List SourceDocument) :=
  match documents with
  | [] => none
  | d0 :: rest =>
    let full_document_content :=
      String.join (((d0 :: rest).map (fun document => document.content)))
    let chunked_content_list := splitter full_document_content
    some (buildChunks d0.source d0.researcher_metadata
      chunked_content_list 0 0)

end StructuredDocumentChunking

/-- A SourceDocumentEnhanced instance. Python attributes are dynamically
typed: each field holds whatever value was passed to the constructor, so the
fields are modelled as JSON values (JVal.null standing for Python None). -/
structure SourceDocumentEnhanced where
  content : JVal
  source : JVal
  id : JVal := .null
  title : JVal := .null
  chunk : JVal := .null
  offset : JVal := .null
  page_number : JVal := .null
  chunk_id : JVal := .null
  enhanced_metadata : JVal := .null
  deriving Repr

/-- Modelled from the spec: the base class method SourceDocument.__eq__
invoked by super().__eq__ (common/source_document.py is not under src/); the
spec states that SourceDocument equality is structural, so it compares the
eight base fields. -/
def SourceDocumentEnhanced.baseEq (a b : SourceDocumentEnhanced) : Bool :=
  JVal.beq a.content b.content && JVal.beq a.source b.source &&
  JVal.beq a.id b.id && JVal.beq a.title b.title &&
  JVal.beq a.chunk b.chunk && JVal.beq a.offset b.offset &&
  JVal.beq a.page_number b.page_number && JVal.beq a.chunk_id b.chunk_id

/-- Embeds SourceDocumentEnhanced.__eq__ applied to two values of this
class: the isinstance guard then holds, so the result is the base structural
equality together with equality of the enhanced metadata. -/
def SourceDocumentEnhanced.eq (a b : SourceDocumentEnhanced) : Bool :=
  SourceDocumentEnhanced.baseEq a b &&
    JVal.beq a.enhanced_metadata b.enhanced_metadata

/-- Embeds the encoding step of to_json (SourceDocumentEnhancedEncoder
.default): the instance becomes a JSON object carrying its nine fields. The
stdlib json.dumps rendering of that object as a string is external and is
modelled as the identity at the value level. -/
def SourceDocumentEnhanced.to_json (d : SourceDocumentEnhanced) : JVal :=
  .obj [("id", d.id), ("content", d.content), ("source", d.source),
        ("title", d.title), ("chunk", d.chunk), ("offset", d.offset),
        ("page_number", d.page_number), ("chunk_id", d.chunk_id),
        ("enhanced_metadata", d.enhanced_metadata)]

/-- Python v[k] indexing: raises KeyError on a dict without the key and
TypeError on a value that is not a dict. -/
def jIndex (v : JVal) (k : String) : Except PyErr JVal :=
  match v with
  | .obj kvs =>
    match dLookup kvs k with
    | some x => .ok x
    | none => .error (.keyError k)
  | _ => .error .typeError

/-- Embeds from_json (SourceDocumentEnhancedDecoder.decode): the stdlib
json.loads parse of the string is external and modelled as the identity at
the value level; the decoder then reads the nine fields by indexing, in the
order the constructor arguments are written, and rebuilds the instance. -/
def SourceDocumentEnhanced.from_json (v : JVal) :
    Except PyErr SourceDocumentEnhanced := do
  let id ← jIndex v "id"
  let content ← jIndex v "content"
  let source ← jIndex v "source"
  let title ← jIndex v "title"
  let chunk ← jIndex v "chunk"
  let offset ← jIndex v "offset"
  let page_number ← jIndex v "page_number"
  let chunk_id ← jIndex v "chunk_id"
  let enhanced_metadata ← jIndex v "enhanced_metadata"
  return { id := id, content := content, source := source, title := title,
           chunk := chunk, offset := offset, page_number := page_number,
           chunk_id := chunk_id, enhanced_metadata := enhanced_metadata }

/-- The scheme, netloc and path components returned by urllib.parse.urlparse
that from_metadata uses. -/
structure UrlParts where
  scheme : String
  netloc : String
  path : String

/-- Python str() of the optional index as interpolated into the hash-key
string: None prints as the four-letter word None. -/
def pyStrOptInt : Option Int → String
  | none => "None"
  | some n => toString n

/-- The eight reserved names excluded from enhanced metadata by
from_metadata. -/
def reservedMetadataKeys : List String :=
  ["id", "content", "source", "title", "chunk", "offset", "page_number",
   "chunk_id"]

/-- Embeds SourceDocumentEnhanced.from_metadata, taking the external stdlib
urlparse and the sha1 hex digest as function arguments: derives the file
URL, title and hash key from the parsed document URL, takes each base field
from the metadata dictionary when present (with the computed defaults), and
keeps as enhanced metadata exactly the metadata entries whose key is not one
of the eight reserved names. -/
def SourceDocumentEnhanced.from_metadata (parse : String → UrlParts)
    (sha1hex : String → String) (content : String)
    (metadata : List (String × JVal)) (document_url : String)
    (idx : Option Int) : SourceDocumentEnhanced :=
  let parsed_url := parse document_url
  let file_url :=
    parsed_url.scheme ++ "://" ++ parsed_url.netloc ++ parsed_url.path
  let filename := parsed_url.path
  let hash_key := "doc_" ++ sha1hex (file_url ++ "_" ++ pyStrOptInt idx)
  let sas_placeholder :=
    if parsed_url.netloc ≠ "" ∧
        parsed_url.netloc.endsWith ".blob.core.windows.net" then
      "_SAS_TOKEN_PLACEHOLDER_"
    else ""
  { id := dGetD metadata "id" (.str hash_key)
    content := .str content
    source := dGetD metadata "source" (.str (file_url ++ sas_placeholder))
    title := dGetD metadata "title" (.str filename)
    chunk := dGetD metadata "chunk"
      (match idx with | none => .null | some n => .int n)
    offset := pyGet metadata "offset"
    page_number := pyGet metadata "page_number"
    chunk_id := pyGet metadata "chunk_id"
    enhanced_metadata :=
      .obj (metadata.filter (fun kv => kv.1 ∉ reservedMetadataKeys)) }

theorem JVal.beq_iff_eq : ∀ a b : JVal, (JVal.beq a b = true ↔ a = b) := by
  apply JVal.beq.induct
    (motive_2 := fun xs ys => (JVal.beqKvs xs ys = true ↔ xs = ys))
    (motive_3 := fun xs ys => (JVal.beqList xs ys = true ↔ xs = ys))
  · simp [JVal.beq]
  · intro a b; simp [JVal.beq, decide_eq_true_iff]
  · intro a b; simp [JVal.beq, decide_eq_true_iff]
  · intro a b; simp [JVal.beq, decide_eq_true_iff]
  · intro a b ih; simp [JVal.beq, ih]
  · intro a b ih; simp [JVal.beq, ih]
  · intro t x h1 h2 h3 h4 h5 h6
    cases t <;> cases x <;>
      first
        | exact (h1 rfl rfl).elim
        | exact (h2 _ _ rfl rfl).elim
        | exact (h3 _ _ rfl rfl).elim
        | exact (h4 _ _ rfl rfl).elim
        | exact (h5 _ _ rfl rfl).elim
        | exact (h6 _ _ rfl rfl).elim
        | simp [JVal.beq]
  · simp [JVal.beqList]
  · intro x xs y ys ih1 ih2; simp [JVal.beqList, ih1, ih2]
  · intro t x h1 h2
    cases t <;> cases x <;>
      first
        | exact (h1 rfl rfl).elim
        | exact (h2 _ _ _ _ rfl rfl).elim
        | simp [JVal.beqList]
  · simp [JVal.beqKvs]
  · intro k v xs k' v' ys ih1 ih2
    simp [JVal.beqKvs, ih1, ih2, decide_eq_true_iff]
  · intro t x h1 h2
    match t, x with
    | [], [] => exact (h1 rfl rfl).elim
    | [], _ :: _ => simp [JVal.beqKvs]
    | _ :: _, [] => simp [JVal.beqKvs]
    | (k, v) :: xs, (k', v') :: ys => exact (h2 k v xs k' v' ys rfl rfl).elim

/-- C8: get_document_loader returns the loader class matching each of the
six known strategy names and raises for every other input string. -/
theorem C8_get_document_loader_total :
    get_document_loader "layout" = .ok .layoutDocumentLoading ∧
    get_document_loader "read" = .ok .readDocumentLoading ∧
    get_document_loader "web" = .ok .webDocumentLoading ∧
    get_document_loader "docx" = .ok .wordDocumentLoading ∧
    get_document_loader "json" = .ok .jsonDocumentLoading ∧
    get_document_loader "csv" = .ok .csvDocumentLoading ∧
    ∀ s : String, s ∉ ["layout", "read", "web", "docx", "json", "csv"] →
      get_document_loader s = .error ("Unknown loader strategy: " ++ s) := by
  refine ⟨rfl, rfl, rfl, rfl, rfl, rfl, ?_⟩
  intro s hs
  simp only [List.mem_cons, List.not_mem_nil, or_false, not_or] at hs
  obtain ⟨h1, h2, h3, h4, h5, h6⟩ := hs
  simp [get_document_loader, LoadingStrategy.value, h1, h2, h3, h4, h5, h6]

theorem C8_get_document_loader_total_witness :
    "pdf" ∉ ["layout", "read", "web", "docx", "json", "csv"] ∧
    get_document_loader "pdf" = .error ("Unknown loader strategy: " ++ "pdf") :=
  ⟨by decide, C8_get_document_loader_total.2.2.2.2.2.2 "pdf" (by decide)⟩

theorem JsonDocumentSettings.callConstructor_succ (n : Nat) :
    JsonDocumentSettings.callConstructor (n + 1) =
      ⟨1, some (0, JsonDocumentSettings.initData)⟩ := by
  induction n with
  | zero => rfl
  | succ m ih =>
    show (JsonDocumentSettings.new
      (JsonDocumentSettings.callConstructor (m + 1))).2 = _
    rw [ih]
    rfl

/-- C7: the settings object is a singleton; after any positive number of
constructor calls the class-level state is the fixed state holding instance
identity 0 with the init configuration, and every further constructor call
returns that same identity with that same configuration while leaving the
state unchanged. -/
theorem C7_settings_singleton (n : Nat) (h : 1 ≤ n) :
    JsonDocumentSettings.callConstructor n =
      ⟨1, some (0, JsonDocumentSettings.initData)⟩ ∧
    (JsonDocumentSettings.new (JsonDocumentSettings.callConstructor n)).1 =
      (0, JsonDocumentSettings.initData) ∧
    (JsonDocumentSettings.new (JsonDocumentSettings.callConstructor n)).2 =
      JsonDocumentSettings.callConstructor n := by
  obtain ⟨m, rfl⟩ : ∃ m, n = m + 1 :=
    ⟨n - 1, (Nat.sub_add_cancel h).symm⟩
  rw [JsonDocumentSettings.callConstructor_succ]
  exact ⟨rfl, rfl, rfl⟩

theorem C7_settings_singleton_witness :
    1 ≤ 2 ∧
    (JsonDocumentSettings.callConstructor 2 =
      ⟨1, some (0, JsonDocumentSettings.initData)⟩ ∧
    (JsonDocumentSettings.new (JsonDocumentSettings.callConstructor 2)).1 =
      (0, JsonDocumentSettings.initData) ∧
    (JsonDocumentSettings.new (JsonDocumentSettings.callConstructor 2)).2 =
      JsonDocumentSettings.callConstructor 2) :=
  ⟨by decide, C7_settings_singleton 2 (by decide)⟩

/-- C1 counterexample: a JSON list payload does not pass the top-level shape
validation; load_json raises the must-be-a-dictionary ValueError on the
empty list. -/
theorem C1_list_payload_raises :
    JsonDocumentLoading.load_json false "data.json" (.arr []) =
      .error (.valueError
        "JSON file at path: data.json must be a dictionary.") := rfl

/-- C1 amended: load_json raises the shape-validation ValueError exactly
when the payload is not a dictionary; a dictionary payload (and only a
dictionary payload) proceeds to schema extraction. -/
theorem C1_shape_validation (strict : Bool) (document_url : String)
    (data : JVal) :
    (∀ kvs, data = .obj kvs →
      JsonDocumentLoading.load_json strict document_url data =
        JsonDocumentLoading.load_schema_from_dict strict document_url kvs) ∧
    ((∀ kvs, data ≠ .obj kvs) →
      JsonDocumentLoading.load_json strict document_url data =
        .error (.valueError ("JSON file at path: " ++ document_url ++
          " must be a dictionary."))) := by
  constructor
  · rintro kvs rfl
    rfl
  · intro h
    cases data <;> first | rfl | exact (h _ rfl).elim

theorem C1_shape_validation_witness :
    JsonDocumentLoading.load_json false "data.json" (.obj []) =
      JsonDocumentLoading.load_schema_from_dict false "data.json" [] ∧
    JsonDocumentLoading.load_json false "data.json" (.arr [.int 1]) =
      .error (.valueError ("JSON file at path: " ++ "data.json" ++
        " must be a dictionary.")) :=
  ⟨(C1_shape_validation false "data.json" (.obj [])).1 [] rfl,
   (C1_shape_validation false "data.json" (.arr [.int 1])).2
     (fun _ h => nomatch h)⟩

/-- C2: on a CONTENT document whose payload has an empty publications list,
schema extraction succeeds, yet the returned metadata dictionary has no
publications entry at all, even though publications is one of the configured
CONTENT metadata keys: the metadata loop calls get_content_publications,
which stores into content, and get_content_publications_metadata is never
invoked. -/
theorem C2_metadata_publications_missing :
    JsonDocumentLoading.get_json_document_type "proposal.json" =
      JsonDocumentSettings.KeyType.CONTENT ∧
    "publications" ∈
      JsonDocumentSettings.metadata_key_fields
        JsonDocumentSettings.KeyType.CONTENT ∧
    ∃ r,
      JsonDocumentLoading.load_schema_from_dict false "proposal.json"
        [("publications", .arr [])] = .ok r ∧
      dLookup r.metadata "publications" = none ∧
      dLookup r.content "publications" = some (.arr []) := by
  refine ⟨rfl, by decide, ⟨_, rfl, rfl, rfl⟩⟩

/-- C3: with strict keys disabled (the configuration the code always
constructs), loading a CONTENT dictionary payload that lacks the
publications field raises a TypeError from iterating None, contradicting
the claim that no exception is raised for an absent field when strict mode
is off. -/
theorem C3_nonstrict_absent_publications_raises :
    JsonDocumentLoading.load_schema_from_dict false "proposal.json" [] =
      .error .typeError := rfl

/-- C4: loading a CSV input with N data rows yields exactly N
SourceDocument instances, each with source equal to the file path. -/
theorem C4_csv_load (document_url : String) (rows : List String) :
    (CsvDocumentLoading.load document_url rows).length = rows.length ∧
    ∀ sd ∈ CsvDocumentLoading.load document_url rows,
      sd.source = document_url := by
  constructor
  · simp [CsvDocumentLoading.load, csvLoaderLoad]
  · intro sd hsd
    simp only [CsvDocumentLoading.load, csvLoaderLoad, List.map_map,
      List.mem_map] at hsd
    obtain ⟨p, _, rfl⟩ := hsd
    simp [CsvDocumentLoading.metadataSource, dLookup]

theorem C4_csv_load_witness :
    (CsvDocumentLoading.load "proposals.csv" ["r1", "r2"]).length = 2 ∧
    ({ content := "r1", source := "proposals.csv" } : SourceDocument) ∈
      CsvDocumentLoading.load "proposals.csv" ["r1", "r2"] ∧
    ({ content := "r1", source := "proposals.csv" } : SourceDocument).source =
      "proposals.csv" := by
  have h : CsvDocumentLoading.load "proposals.csv" ["r1", "r2"] =
      [{ content := "r1", source := "proposals.csv" },
       { content := "r2", source := "proposals.csv" }] := rfl
  refine ⟨(C4_csv_load "proposals.csv" ["r1", "r2"]).1, ?_, ?_⟩
  · rw [h]; exact List.mem_cons_self _ _
  · exact (C4_csv_load "proposals.csv" ["r1", "r2"]).2 _
      (by rw [h]; exact List.mem_cons_self _ _)

theorem StructuredDocumentChunking.buildChunks_length
    (document_url : String) (rm : Option JVal) :
    ∀ (cs : List String) (idx chunk_offset : Nat),
      (StructuredDocumentChunking.buildChunks document_url rm cs idx
        chunk_offset).length = cs.length := by
  intro cs
  induction cs with
  | nil => intro idx off; rfl
  | cons c cs ih =>
    intro idx off
    simp [StructuredDocumentChunking.buildChunks, ih]

theorem StructuredDocumentChunking.buildChunks_get
    (document_url : String) (rm : Option JVal) :
    ∀ (cs : List String) (idx chunk_offset i : Nat)
      (hi : i < (StructuredDocumentChunking.buildChunks document_url rm cs
        idx chunk_offset).length)
      (hi' : i < cs.length),
      (StructuredDocumentChunking.buildChunks document_url rm cs idx
          chunk_offset).get ⟨i, hi⟩ =
        SourceDocument.from_metadata (cs.get ⟨i, hi'⟩) document_url rm
          (chunk_offset + ((cs.take i).map String.length).sum) (idx + i) := by
  intro cs
  induction cs with
  | nil => intro idx off i hi hi'; exact absurd hi' (by simp)
  | cons c cs ih =>
    intro idx off i hi hi'
    match i with
    | 0 => simp [StructuredDocumentChunking.buildChunks]
    | i + 1 =>
      have hi2 : i < (StructuredDocumentChunking.buildChunks document_url rm
          cs (idx + 1) (off + c.length)).length := by
        rw [StructuredDocumentChunking.buildChunks_length]
        exact Nat.lt_of_succ_lt_succ hi'
      have hstep :
          (StructuredDocumentChunking.buildChunks document_url rm (c :: cs)
            idx off).get ⟨i + 1, hi⟩ =
          (StructuredDocumentChunking.buildChunks document_url rm cs
            (idx + 1) (off + c.length)).get ⟨i, hi2⟩ := rfl
      rw [hstep, ih (idx + 1) (off + c.length) i hi2
        (Nat.lt_of_succ_lt_succ hi')]
      have e1 : off + c.length + ((cs.take i).map String.length).sum =
          off + (((c :: cs).take (i + 1)).map String.length).sum := by
        simp [List.take_succ_cons]
        omega
      have e2 : idx + 1 + i = idx + (i + 1) := by omega
      have e3 : (cs.get ⟨i, Nat.lt_of_succ_lt_succ hi'⟩) =
          ((c :: cs).get ⟨i + 1, hi'⟩) := rfl
      rw [e1, e2, e3]

/-- C5: chunking a nonempty document list yields one SourceDocument per
chunk produced by the splitter (here a function argument standing for the
splitter the code builds from the chunking settings) over the concatenated
contents: the i-th output carries chunk index i, offset the summed length of
the preceding chunks, and the first input document source. -/
theorem C5_structured_chunk (splitter : String → List String)
    (d0 : SourceDocument) (rest : List SourceDocument) :
    ∃ out, StructuredDocumentChunking.chunk splitter (d0 :: rest) =
        some out ∧
      out.length = (splitter (String.join
        (((d0 :: rest).map (fun document => document.content))))).length ∧
      ∀ i (hi : i < out.length),
        (out.get ⟨i, hi⟩).chunk = some i ∧
        (out.get ⟨i, hi⟩).offset = some ((((splitter (String.join
          (((d0 :: rest).map (fun document =>
            document.content))))).take i).map String.length).sum) ∧
        (out.get ⟨i, hi⟩).source = d0.source := by
  refine ⟨_, rfl, ?_, ?_⟩
  · exact StructuredDocumentChunking.buildChunks_length _ _ _ _ _
  · intro i hi
    have hi' : i < (splitter (String.join
        (((d0 :: rest).map (fun document => document.content))))).length := by
      rw [← StructuredDocumentChunking.buildChunks_length d0.source
        d0.researcher_metadata _ 0 0]
      exact hi
    rw [StructuredDocumentChunking.buildChunks_get d0.source
      d0.researcher_metadata _ 0 0 i hi hi']
    refine ⟨?_, ?_, rfl⟩
    · simp [SourceDocument.from_metadata]
    · simp [SourceDocument.from_metadata]

theorem C5_structured_chunk_witness :
    ∃ out,
      StructuredDocumentChunking.chunk (fun s => [s.take 2, s.drop 2])
        [{ content := "abc", source := "u" },
         { content := "d", source := "v" }] = some out ∧
      out.length = 2 ∧
      ((0 < out.length → True) ∧
        ∀ hi : 1 < out.length,
          (out.get ⟨1, hi⟩).chunk = some 1 ∧
          (out.get ⟨1, hi⟩).offset = some 2 ∧
          (out.get ⟨1, hi⟩).source = "u") := by
  obtain ⟨out, hout, hlen, hget⟩ :=
    C5_structured_chunk (fun s => [s.take 2, s.drop 2])
      { content := "abc", source := "u" } [{ content := "d", source := "v" }]
  refine ⟨out, hout, hlen, fun _ => True.intro, fun hi => ?_⟩
  have h := hget 1 hi
  exact ⟨h.1, by simpa using h.2.1, h.2.2⟩

/-- C6: equality of SourceDocumentEnhanced is structural over the nine
fields, and symmetric. -/
theorem C6_eq_structural (a b : SourceDocumentEnhanced) :
    (SourceDocumentEnhanced.eq a b = true ↔
      (a.content = b.content ∧ a.source = b.source ∧ a.id = b.id ∧
       a.title = b.title ∧ a.chunk = b.chunk ∧ a.offset = b.offset ∧
       a.page_number = b.page_number ∧ a.chunk_id = b.chunk_id ∧
       a.enhanced_metadata = b.enhanced_metadata)) ∧
    SourceDocumentEnhanced.eq a b = SourceDocumentEnhanced.eq b a := by
  have key : ∀ x y : SourceDocumentEnhanced,
      (SourceDocumentEnhanced.eq x y = true ↔
        (x.content = y.content ∧ x.source = y.source ∧ x.id = y.id ∧
         x.title = y.title ∧ x.chunk = y.chunk ∧ x.offset = y.offset ∧
         x.page_number = y.page_number ∧ x.chunk_id = y.chunk_id ∧
         x.enhanced_metadata = y.enhanced_metadata)) := by
    intro x y
    simp [SourceDocumentEnhanced.eq, SourceDocumentEnhanced.baseEq,
      JVal.beq_iff_eq, and_assoc]
  refine ⟨key a b, ?_⟩
  rw [Bool.eq_iff_iff, key a b, key b a]
  constructor
  · rintro ⟨h1, h2, h3, h4, h5, h6, h7, h8, h9⟩
    exact ⟨h1.symm, h2.symm, h3.symm, h4.symm, h5.symm, h6.symm, h7.symm,
      h8.symm, h9.symm⟩
  · rintro ⟨h1, h2, h3, h4, h5, h6, h7, h8, h9⟩
    exact ⟨h1.symm, h2.symm, h3.symm, h4.symm, h5.symm, h6.symm, h7.symm,
      h8.symm, h9.symm⟩

/-- C9: decoding the JSON encoding of any SourceDocumentEnhanced succeeds
and returns an instance structurally equal to the original under the class
equality (fields range over the JSON data model, which is what the stdlib
encoder serializes faithfully). -/
theorem C9_json_roundtrip (d : SourceDocumentEnhanced) :
    ∃ e, SourceDocumentEnhanced.from_json (SourceDocumentEnhanced.to_json d)
        = .ok e ∧ SourceDocumentEnhanced.eq e d = true := by
  refine ⟨d, rfl, ?_⟩
  simp [SourceDocumentEnhanced.eq, SourceDocumentEnhanced.baseEq,
    JVal.beq_iff_eq]

/-- C10: the enhanced metadata built by from_metadata holds exactly the
input metadata entries whose key is not one of the eight reserved names, and
no reserved name occurs as one of its keys. -/
theorem C10_enhanced_metadata_filter (parse : String → UrlParts)
    (sha1hex : String → String) (content : String)
    (metadata : List (String × JVal)) (document_url : String)
    (idx : Option Int) :
    ∃ l, (SourceDocumentEnhanced.from_metadata parse sha1hex content
        metadata document_url idx).enhanced_metadata = .obj l ∧
      (∀ k v, (k, v) ∈ l ↔ ((k, v) ∈ metadata ∧ k ∉ reservedMetadataKeys)) ∧
      (∀ k ∈ reservedMetadataKeys, ∀ v, (k, v) ∉ l) := by
  refine ⟨_, rfl, ?_, ?_⟩
  · intro k v
    simp [List.mem_filter]
  · intro k hk v hmem
    rw [List.mem_filter] at hmem
    exact absurd hk (by simpa using hmem.2)

theorem C10_enhanced_metadata_filter_witness :
    ∃ l, (SourceDocumentEnhanced.from_metadata
        (fun _ => ⟨"https", "example.com", "/a.json"⟩) (fun s => s) "c"
        [("cluster", .str "x"), ("id", .str "y")] "u" none).enhanced_metadata
        = .obj l ∧
      ("cluster", JVal.str "x") ∈ l ∧
      ∀ v, ("id", v) ∉ l := by
  obtain ⟨l, hl, hmem, hres⟩ :=
    C10_enhanced_metadata_filter
      (fun _ => ⟨"https", "example.com", "/a.json"⟩) (fun s => s) "c"
      [("cluster", .str "x"), ("id", .str "y")] "u" none
  refine ⟨l, hl, ?_, ?_⟩
  · exact (hmem "cluster" (.str "x")).2 ⟨by simp, by decide⟩
  · intro v
    exact hres "id" (by decide) v
